import Mathlib

/-!
Shallow embedding of the Toronto bike-share program (`bikes.py`).

A station record is a Python list indexed by the constants `ID = 0`,
`NAME = 1`, `LATITUDE = 2`, `LONGITUDE = 3`, `CAPACITY = 4`,
`BIKES_AVAILABLE = 5`, `DOCKS_AVAILABLE = 6`, `IS_RENTING = 7`,
`IS_RETURNING = 8`; here it becomes a structure whose fields carry the same
names, and an index constant becomes the projection onto the matching field.
Python ints are `ℤ`, coordinates (Python floats) are `ℚ` — every coordinate
and every ratio appearing in the concrete inputs used below is evaluated
far enough from a rounding boundary that exact rational arithmetic and
Python's binary floating point agree — and Python's `round` (banker's
rounding, round-half-to-even) is `roundHE` below.  The in-place list
mutation of the Python functions becomes returning the new list; functions
that return `None` on some path return `Option` values.
-/

attribute [local semireducible] Rat.add Rat.mul Rat.inv Rat.sub Rat.ofScientific

structure Station where
  id : ℤ
  name : String
  latitude : ℚ
  longitude : ℚ
  capacity : ℤ
  bikes_available : ℤ
  docks_available : ℤ
  is_renting : Bool
  is_returning : Bool
deriving DecidableEq

/-- The two stations of `SAMPLE_STATIONS` in the source. -/
def st7087 : Station :=
  ⟨7087, "Danforth/Aldridge", 43.684371, -79.316756, 23, 9, 14, true, true⟩

def st7088 : Station :=
  ⟨7088, "Danforth/Coxwell", 43.683378, -79.322961, 15, 13, 2, false, false⟩

def SAMPLE_STATIONS : List Station := [st7087, st7088]

/-- Python's built-in `round` on the exact value of its argument:
round half to even. `Int.fdiv q.num q.den` is the floor of `q`. -/
def roundHE (q : ℚ) : ℤ :=
  let f : ℤ := Int.fdiv q.num (q.den : ℤ)
  if q - (f : ℚ) < 1/2 then f
  else if (1/2 : ℚ) < q - (f : ℚ) then f + 1
  else if f % 2 = 0 then f else f + 1

/-- `get_total(index, stations)`: the source selects a column by an index
constant; over the structure the column is a field projection. -/
def get_total (column : Station → ℤ) (stations : List Station) : ℤ :=
  stations.foldl (fun total s => total + column s) 0

/-- Python's `max` on a non-empty list of ints (`max([])` raises, modelled
arbitrarily as `0`). -/
def listMax : List ℤ → ℤ
  | [] => 0
  | x :: xs => xs.foldl max x

/-- Python's `list.index`: position of the first occurrence (absence
raises; then this returns the length). -/
def listIndex (a : ℤ) : List ℤ → ℕ
  | [] => 0
  | x :: xs => if x = a then 0 else listIndex a xs + 1

/-- Stand-in for Python's `IndexError` on out-of-range access. -/
def dummyStation : Station := ⟨0, "", 0, 0, 0, 0, 0, false, false⟩

/-- `get_station_with_max_bikes(stations)`. -/
def get_station_with_max_bikes (stations : List Station) : ℤ :=
  let max_bikes := stations.map (fun s => s.bikes_available)
  let maximum := listIndex (listMax max_bikes) max_bikes
  (stations.getD maximum dummyStation).id

/-- `get_stations_with_n_docks(n, stations)`. -/
def get_stations_with_n_docks (n : ℤ) (stations : List Station) : List ℤ :=
  stations.foldl
    (fun stations_with_n_docks s =>
      if n ≤ s.docks_available then stations_with_n_docks ++ [s.id]
      else stations_with_n_docks) []

/-- Move `k` units from `bikes_available` into `docks_available`:
`stations[i][5] -= k; stations[i][6] += k`. -/
def remove_bikes (k : ℤ) (s : Station) : Station :=
  { s with bikes_available := s.bikes_available - k,
           docks_available := s.docks_available + k }

/-- Move `k` units from `docks_available` into `bikes_available`:
`stations[i][5] += k; stations[i][6] -= k`. -/
def add_bikes (k : ℤ) (s : Station) : Station :=
  { s with bikes_available := s.bikes_available + k,
           docks_available := s.docks_available - k }

/-- `rent_bike(station_id, stations)`: the loop touches index `i` only at
iteration `i`, so it is a pointwise update; the `rental` flag is set by any
successful iteration and never cleared. -/
def rent_bike (station_id : ℤ) : List Station → Bool × List Station
  | [] => (false, [])
  | s :: rest =>
    if s.id = station_id ∧ s.is_renting = true ∧ 0 < s.bikes_available then
      (true, remove_bikes 1 s :: (rent_bike station_id rest).2)
    else
      ((rent_bike station_id rest).1, s :: (rent_bike station_id rest).2)

/-- `return_bike(station_id, stations)`. -/
def return_bike (station_id : ℤ) : List Station → Bool × List Station
  | [] => (false, [])
  | s :: rest =>
    if s.id = station_id ∧ s.is_returning = true ∧ 0 < s.docks_available then
      (true, add_bikes 1 s :: (return_bike station_id rest).2)
    else
      ((return_bike station_id rest).1, s :: (return_bike station_id rest).2)

/-- `overall_percentage` of `balance_all_bikes`:
`round((overall_bikes/(overall_bikes + overall_spaces))*100)`. -/
def overall_percentage (stations : List Station) : ℤ :=
  let overall_spaces := get_total (fun s => s.docks_available) stations
  let overall_bikes := get_total (fun s => s.bikes_available) stations
  roundHE (((overall_bikes : ℚ) / ((overall_bikes : ℚ) + (overall_spaces : ℚ))) * 100)

/-- `station_average` of `balance_all_bikes`:
`round(((stations[i][5])/(stations[i][5]+stations[i][6]))*100)`. -/
def station_average (s : Station) : ℤ :=
  roundHE (((s.bikes_available : ℚ) /
    ((s.bikes_available : ℚ) + (s.docks_available : ℚ))) * 100)

/-- `number_remove` of `balance_all_bikes`. -/
def number_remove (p : ℤ) (s : Station) : ℤ :=
  roundHE ((-(p : ℚ) / 100) * ((s.bikes_available : ℚ) + (s.docks_available : ℚ))
    + (s.bikes_available : ℚ))

/-- `number_add` of `balance_all_bikes`. -/
def number_add (p : ℤ) (s : Station) : ℤ :=
  roundHE (((p : ℚ) / 100) * ((s.bikes_available : ℚ) + (s.docks_available : ℚ))
    - (s.bikes_available : ℚ))

/-- First mutation-free pass of `balance_all_bikes`: accumulate
`(excess_bikes, deficit_bikes)`. -/
def pools (p : ℤ) (stations : List Station) : ℤ × ℤ :=
  stations.foldl
    (fun acc s =>
      if station_average s > p then (acc.1 + number_remove p s, acc.2)
      else if station_average s < p then (acc.1, acc.2 + number_add p s)
      else acc) (0, 0)

/-- Second pass of `balance_all_bikes`: each iteration reads its own
station's original fields (the loop only mutates index `i` at iteration
`i`) and the current pool values. -/
def balance_pass (p : ℤ) : ℤ → ℤ → List Station → List Station
  | _, _, [] => []
  | excess_bikes, deficit_bikes, s :: rest =>
    if station_average s > p ∧ s.is_renting = true ∧ 0 < excess_bikes then
      remove_bikes (number_remove p s) s ::
        balance_pass p (excess_bikes - number_remove p s) deficit_bikes rest
    else if station_average s < p ∧ s.is_returning = true ∧
        0 < s.docks_available ∧ 0 < deficit_bikes then
      add_bikes (number_add p s) s ::
        balance_pass p excess_bikes (deficit_bikes - number_add p s) rest
    else
      s :: balance_pass p excess_bikes deficit_bikes rest

/-- `balance_all_bikes(stations)`. -/
def balance_all_bikes (stations : List Station) : List Station :=
  let p := overall_percentage stations
  let ed := pools p stations
  balance_pass p ed.1 ed.2 stations

/-- The lookup loop of `get_direction`: `if stations[i][0] == start_id`
sets the start coordinates, `elif stations[i][0] == end_id` sets the end
coordinates; a later match overwrites an earlier one. `none` models a
variable left unbound (Python `NameError`). -/
def find_coords (start_id end_id : ℤ) (stations : List Station) :
    Option (ℚ × ℚ) × Option (ℚ × ℚ) :=
  stations.foldl
    (fun acc s =>
      if s.id = start_id then (some (s.latitude, s.longitude), acc.2)
      else if s.id = end_id then (acc.1, some (s.latitude, s.longitude))
      else acc) (none, none)

/-- `math.atan2(y, x)` over the reals (C convention, as Python's). Only the
`0 < x` branch is reached by the theorems below. -/
noncomputable def atan2 (y x : ℝ) : ℝ :=
  if 0 < x then Real.arctan (y / x)
  else if x < 0 ∧ 0 ≤ y then Real.arctan (y / x) + Real.pi
  else if x < 0 ∧ y < 0 then Real.arctan (y / x) - Real.pi
  else if x = 0 ∧ 0 < y then Real.pi / 2
  else if x = 0 ∧ y < 0 then -(Real.pi / 2)
  else 0

/-- The chain of `if`/`elif` at the end of `get_direction`, exactly as in
the source (including the final condition
`degree >= -67.5 and degree >= -22.5`); `none` is the implicit Python
`None` when no branch fires. -/
noncomputable def direction_of_degree (degree : ℝ) : Option String :=
  if (degree > -22.5 ∧ degree < 0) ∨ (degree < 22.5 ∧ degree > 0) then some "WEST"
  else if degree ≥ 22.5 ∧ degree ≤ 67.5 then some "SOUTHWEST"
  else if degree > 67.5 ∧ degree < 112.5 then some "SOUTH"
  else if degree ≥ 112.5 ∧ degree ≤ 157.5 then some "SOUTHEAST"
  else if (degree > 157.5 ∧ degree < 180) ∨ (degree < -157.5 ∧ degree > -180) then some "EAST"
  else if degree ≥ -157.5 ∧ degree ≤ -112.5 then some "NORTHEAST"
  else if degree > -112.5 ∧ degree < -67.5 then some "NORTH"
  else if degree ≥ -67.5 ∧ degree ≥ -22.5 then some "NORTHWEST"
  else none

/-- `get_direction(start_id, end_id, stations)`: equal longitudes are
nudged by `0.00001` before the bearing; the coordinates (exact decimal
fractions in `ℚ`) are then read as real numbers. -/
noncomputable def get_direction (start_id end_id : ℤ) (stations : List Station) :
    Option String :=
  match find_coords start_id end_id stations with
  | (some st, some en) =>
    let longitude_start : ℚ := if st.2 = en.2 then st.2 + 0.00001 else st.2
    direction_of_degree
      (180 * atan2 ((st.1 : ℝ) - (en.1 : ℝ)) ((longitude_start : ℝ) - (en.2 : ℝ)) /
        Real.pi)
  | _ => none

def c1A : Station := ⟨1, "a", 0, 0, 100, 100, 0, false, true⟩
def c1B : Station := ⟨2, "b", 0, 0, 100, 0, 100, true, true⟩
def c1repo : List Station := [c1A, c1B]

def c2A : Station := ⟨1, "a", 0, 0, 2, 1, 1, true, true⟩
def c2B : Station := ⟨2, "b", 0, 0, 4, 2, 2, true, true⟩
def c2repo : List Station := [c2A, c2B]

def eqlonA : Station := ⟨1, "a", 1, 5, 0, 0, 0, false, false⟩
def eqlonB : Station := ⟨2, "b", 2, 5, 0, 0, 0, false, false⟩
def eqlonRepo : List Station := [eqlonA, eqlonB]

/-- The per-station conserved quantity `bikes_available + docks_available`. -/
def sumBD (s : Station) : ℤ := s.bikes_available + s.docks_available

/-- Every field of a station except the two occupancy counters. -/
def frameOf (s : Station) : ℤ × String × ℚ × ℚ × ℤ × Bool × Bool :=
  (s.id, s.name, s.latitude, s.longitude, s.capacity, s.is_renting, s.is_returning)

/-! ## Helper lemmas -/

theorem sumBD_remove_bikes (k : ℤ) (s : Station) : sumBD (remove_bikes k s) = sumBD s := by
  simp [sumBD, remove_bikes]

theorem sumBD_add_bikes (k : ℤ) (s : Station) : sumBD (add_bikes k s) = sumBD s := by
  simp [sumBD, add_bikes]

theorem frameOf_remove_bikes (k : ℤ) (s : Station) : frameOf (remove_bikes k s) = frameOf s := rfl

theorem frameOf_add_bikes (k : ℤ) (s : Station) : frameOf (add_bikes k s) = frameOf s := rfl

theorem rent_bike_map_sumBD (sid : ℤ) (l : List Station) :
    ((rent_bike sid l).2).map sumBD = l.map sumBD := by
  induction l with
  | nil => rfl
  | cons s rest ih =>
    simp only [rent_bike]
    split_ifs with h
    · simp [sumBD_remove_bikes, ih]
    · simp [ih]

theorem return_bike_map_sumBD (sid : ℤ) (l : List Station) :
    ((return_bike sid l).2).map sumBD = l.map sumBD := by
  induction l with
  | nil => rfl
  | cons s rest ih =>
    simp only [return_bike]
    split_ifs with h
    · simp [sumBD_add_bikes, ih]
    · simp [ih]

theorem balance_pass_map_sumBD (p : ℤ) (l : List Station) :
    ∀ e d, (balance_pass p e d l).map sumBD = l.map sumBD := by
  induction l with
  | nil => intro e d; rfl
  | cons s rest ih =>
    intro e d
    simp only [balance_pass]
    split_ifs with h1 h2
    · simp [sumBD_remove_bikes, ih]
    · simp [sumBD_add_bikes, ih]
    · simp [ih]

theorem balance_map_sumBD (l : List Station) :
    (balance_all_bikes l).map sumBD = l.map sumBD := by
  simp only [balance_all_bikes]
  exact balance_pass_map_sumBD _ _ _ _

theorem rent_bike_map_frameOf (sid : ℤ) (l : List Station) :
    ((rent_bike sid l).2).map frameOf = l.map frameOf := by
  induction l with
  | nil => rfl
  | cons s rest ih =>
    simp only [rent_bike]
    split_ifs with h
    · simp [frameOf_remove_bikes, ih]
    · simp [ih]

theorem return_bike_map_frameOf (sid : ℤ) (l : List Station) :
    ((return_bike sid l).2).map frameOf = l.map frameOf := by
  induction l with
  | nil => rfl
  | cons s rest ih =>
    simp only [return_bike]
    split_ifs with h
    · simp [frameOf_add_bikes, ih]
    · simp [ih]

theorem balance_pass_map_frameOf (p : ℤ) (l : List Station) :
    ∀ e d, (balance_pass p e d l).map frameOf = l.map frameOf := by
  induction l with
  | nil => intro e d; rfl
  | cons s rest ih =>
    intro e d
    simp only [balance_pass]
    split_ifs with h1 h2
    · simp [frameOf_remove_bikes, ih]
    · simp [frameOf_add_bikes, ih]
    · simp [ih]

theorem rent_bike_of_absent (sid : ℤ) (l : List Station) (h : ∀ t ∈ l, t.id ≠ sid) :
    rent_bike sid l = (false, l) := by
  induction l with
  | nil => rfl
  | cons s rest ih =>
    have hs : s.id ≠ sid := h s (List.mem_cons_self s rest)
    have hrest := ih fun t ht => h t (List.mem_cons_of_mem s ht)
    simp only [rent_bike, hrest]
    rw [if_neg]
    rintro ⟨h1, -, -⟩
    exact hs h1

theorem return_bike_of_absent (sid : ℤ) (l : List Station) (h : ∀ t ∈ l, t.id ≠ sid) :
    return_bike sid l = (false, l) := by
  induction l with
  | nil => rfl
  | cons s rest ih =>
    have hs : s.id ≠ sid := h s (List.mem_cons_self s rest)
    have hrest := ih fun t ht => h t (List.mem_cons_of_mem s ht)
    simp only [return_bike, hrest]
    rw [if_neg]
    rintro ⟨h1, -, -⟩
    exact hs h1

theorem get_total_eq_sum (f : Station → ℤ) (l : List Station) :
    get_total f l = (l.map f).sum := by
  have key : ∀ (init : ℤ), l.foldl (fun total s => total + f s) init = init + (l.map f).sum := by
    induction l with
    | nil => intro init; simp
    | cons s rest ih =>
      intro init
      simp only [List.foldl_cons, List.map_cons, List.sum_cons, ih]
      ring
  simpa using key 0

theorem map_sum_split (l : List Station) :
    (l.map sumBD).sum =
      (l.map fun s => s.bikes_available).sum + (l.map fun s => s.docks_available).sum := by
  induction l with
  | nil => simp
  | cons s rest ih => simp only [List.map_cons, List.sum_cons, ih, sumBD]; ring

/-! ## Claim theorems -/

/-- C3: for every station in the repository and every mutating operation
(`rent_bike`, `return_bike`, `balance_all_bikes`), the station's
`bikes_available + docks_available` after the operation equals its value
before (stated as equality of the pointwise images under `sumBD`, which
fixes length, order and every per-position sum). -/
theorem mutating_ops_conserve_station_sum (sid : ℤ) (stations : List Station) :
    ((rent_bike sid stations).2).map sumBD = stations.map sumBD ∧
    ((return_bike sid stations).2).map sumBD = stations.map sumBD ∧
    (balance_all_bikes stations).map sumBD = stations.map sumBD :=
  ⟨rent_bike_map_sumBD sid stations, return_bike_map_sumBD sid stations,
    balance_map_sumBD stations⟩

/-- C9: the mutating operations preserve the number of stations, their
order, and every field other than the two occupancy counters (the query
operations are embedded as pure functions of the repository, so they
cannot mutate it at all). -/
theorem ops_preserve_frame (sid : ℤ) (stations : List Station) :
    ((rent_bike sid stations).2).map frameOf = stations.map frameOf ∧
    ((return_bike sid stations).2).map frameOf = stations.map frameOf ∧
    (balance_all_bikes stations).map frameOf = stations.map frameOf :=
  ⟨rent_bike_map_frameOf sid stations, return_bike_map_frameOf sid stations, by
    simp only [balance_all_bikes]; exact balance_pass_map_frameOf _ _ _ _⟩

/-- C10: when no station carries the requested id, `rent_bike` and
`return_bike` return `False` and leave the repository unchanged (no
exception is raised: the lookup loop simply never matches). -/
theorem absent_id_no_mutation (sid : ℤ) (stations : List Station)
    (h : ∀ t ∈ stations, t.id ≠ sid) :
    rent_bike sid stations = (false, stations) ∧
    return_bike sid stations = (false, stations) :=
  ⟨rent_bike_of_absent sid stations h, return_bike_of_absent sid stations h⟩

/-- Witness for C10 at a concrete absent id. -/
theorem absent_id_no_mutation_witness :
    rent_bike 9999 SAMPLE_STATIONS = (false, SAMPLE_STATIONS) ∧
    return_bike 9999 SAMPLE_STATIONS = (false, SAMPLE_STATIONS) :=
  absent_id_no_mutation 9999 SAMPLE_STATIONS (by decide)

/-- C1 counterexample: a repository meeting all the claim's hypotheses
(non-negative counts, non-zero per-station totals) on which one call to
`balance_all_bikes` moves the total `bikes_available` from 100 to 150 —
the shift is 50, far above the station count 2.  Station `c1A` is a
surplus station that may not donate (`is_renting = False`), yet the
deficit station `c1B` still converts 50 of its docks into bikes. -/
theorem balance_total_bikes_shift_exceeds_station_count :
    (∀ s ∈ c1repo, 0 ≤ s.bikes_available ∧ 0 ≤ s.docks_available ∧
      s.bikes_available + s.docks_available ≠ 0) ∧
    ¬ |get_total (fun s => s.bikes_available) (balance_all_bikes c1repo) -
        get_total (fun s => s.bikes_available) c1repo| ≤ (c1repo.length : ℤ) := by
  constructor
  · decide
  · decide

/-- C1 amended: what `balance_all_bikes` does conserve is the system-wide
total of `bikes_available` plus `docks_available` (each station's pair sum
is untouched); the total of `bikes_available` alone can shift by more than
the number of stations, as `balance_total_bikes_shift_exceeds_station_count`
shows. -/
theorem balance_conserves_bikes_plus_docks_total (stations : List Station) :
    get_total (fun s => s.bikes_available) (balance_all_bikes stations) +
      get_total (fun s => s.docks_available) (balance_all_bikes stations) =
    get_total (fun s => s.bikes_available) stations +
      get_total (fun s => s.docks_available) stations := by
  have h := congrArg List.sum (balance_map_sumBD stations)
  rw [map_sum_split, map_sum_split] at h
  rw [get_total_eq_sum, get_total_eq_sum, get_total_eq_sum, get_total_eq_sum]
  exact h

theorem balance_pass_of_all_at_target (p : ℤ) (l : List Station)
    (h : ∀ s ∈ l, station_average s = p) :
    ∀ e d, balance_pass p e d l = l := by
  induction l with
  | nil => intro e d; rfl
  | cons s rest ih =>
    intro e d
    have hs : station_average s = p := h s (List.mem_cons_self s rest)
    have hrest := ih fun t ht => h t (List.mem_cons_of_mem s ht)
    simp only [balance_pass]
    rw [if_neg, if_neg]
    · rw [hrest]
    · rintro ⟨h1, -⟩; exact absurd hs (ne_of_lt h1)
    · rintro ⟨h1, -⟩; exact absurd hs (ne_of_gt h1)

/-- C2: when every station's rounded occupancy percentage equals the
network-wide rounded percentage, `balance_all_bikes` changes nothing (both
branches of the second pass are off for every station), and hence a second
call changes nothing either. -/
theorem balance_noop_on_balanced_network (stations : List Station)
    (h : ∀ s ∈ stations, station_average s = overall_percentage stations) :
    balance_all_bikes stations = stations ∧
    balance_all_bikes (balance_all_bikes stations) = stations := by
  have h1 : balance_all_bikes stations = stations := by
    simp only [balance_all_bikes]
    exact balance_pass_of_all_at_target _ _ h _ _
  exact ⟨h1, by rw [h1, h1]⟩

/-- Witness for C2: a two-station network already at 50% everywhere. -/
theorem balance_noop_on_balanced_network_witness :
    balance_all_bikes c2repo = c2repo ∧
    balance_all_bikes (balance_all_bikes c2repo) = c2repo :=
  balance_noop_on_balanced_network c2repo (by decide)

/-- C4: with the requested id held by exactly the station `s`, `rent_bike`
succeeds — returning `True` and moving exactly one unit from
`bikes_available` to `docks_available` of `s` — iff `is_renting` holds and
`bikes_available > 0`, and otherwise returns `False` and mutates nothing. -/
theorem rent_bike_spec (sid : ℤ) (pre post : List Station) (s : Station)
    (hpre : ∀ t ∈ pre, t.id ≠ sid) (hpost : ∀ t ∈ post, t.id ≠ sid)
    (hs : s.id = sid) :
    (s.is_renting = true ∧ 0 < s.bikes_available →
      rent_bike sid (pre ++ s :: post) = (true, pre ++ remove_bikes 1 s :: post)) ∧
    (¬(s.is_renting = true ∧ 0 < s.bikes_available) →
      rent_bike sid (pre ++ s :: post) = (false, pre ++ s :: post)) := by
  induction pre with
  | nil =>
    simp only [List.nil_append]
    constructor
    · intro hc
      simp only [rent_bike]
      rw [if_pos ⟨hs, hc.1, hc.2⟩, rent_bike_of_absent sid post hpost]
    · intro hc
      simp only [rent_bike]
      rw [if_neg, rent_bike_of_absent sid post hpost]
      rintro ⟨-, h2, h3⟩
      exact hc ⟨h2, h3⟩
  | cons t pre' ih =>
    have ht : t.id ≠ sid := hpre t (List.mem_cons_self t pre')
    have ih' := ih fun u hu => hpre u (List.mem_cons_of_mem t hu)
    constructor
    · intro hc
      simp only [List.cons_append, rent_bike, List.append_eq]
      rw [if_neg, ih'.1 hc]
      rintro ⟨h1, -, -⟩
      exact ht h1
    · intro hc
      simp only [List.cons_append, rent_bike, List.append_eq]
      rw [if_neg, ih'.2 hc]
      rintro ⟨h1, -, -⟩
      exact ht h1

/-- Witness for C4: renting from station 7087 of `SAMPLE_STATIONS`. -/
theorem rent_bike_spec_witness :
    rent_bike 7087 SAMPLE_STATIONS = (true, [remove_bikes 1 st7087, st7088]) :=
  (rent_bike_spec 7087 [] [st7088] st7087 (by decide) (by decide) (by decide)).1
    (by decide)

/-- C5: with the requested id held by exactly the station `s`,
`return_bike` succeeds — returning `True` and moving exactly one unit from
`docks_available` to `bikes_available` of `s` — iff `is_returning` holds
and `docks_available > 0`, and otherwise returns `False` and mutates
nothing. -/
theorem return_bike_spec (sid : ℤ) (pre post : List Station) (s : Station)
    (hpre : ∀ t ∈ pre, t.id ≠ sid) (hpost : ∀ t ∈ post, t.id ≠ sid)
    (hs : s.id = sid) :
    (s.is_returning = true ∧ 0 < s.docks_available →
      return_bike sid (pre ++ s :: post) = (true, pre ++ add_bikes 1 s :: post)) ∧
    (¬(s.is_returning = true ∧ 0 < s.docks_available) →
      return_bike sid (pre ++ s :: post) = (false, pre ++ s :: post)) := by
  induction pre with
  | nil =>
    simp only [List.nil_append]
    constructor
    · intro hc
      simp only [return_bike]
      rw [if_pos ⟨hs, hc.1, hc.2⟩, return_bike_of_absent sid post hpost]
    · intro hc
      simp only [return_bike]
      rw [if_neg, return_bike_of_absent sid post hpost]
      rintro ⟨-, h2, h3⟩
      exact hc ⟨h2, h3⟩
  | cons t pre' ih =>
    have ht : t.id ≠ sid := hpre t (List.mem_cons_self t pre')
    have ih' := ih fun u hu => hpre u (List.mem_cons_of_mem t hu)
    constructor
    · intro hc
      simp only [List.cons_append, return_bike, List.append_eq]
      rw [if_neg, ih'.1 hc]
      rintro ⟨h1, -, -⟩
      exact ht h1
    · intro hc
      simp only [List.cons_append, return_bike, List.append_eq]
      rw [if_neg, ih'.2 hc]
      rintro ⟨h1, -, -⟩
      exact ht h1

/-- Witness for C5: returning to station 7088 of `SAMPLE_STATIONS` fails
(`is_returning` is `False` there) and mutates nothing. -/
theorem return_bike_spec_witness :
    return_bike 7088 ([st7087] ++ st7088 :: []) = (false, [st7087] ++ st7088 :: []) :=
  (return_bike_spec 7088 [st7087] [] st7088 (by decide) (by decide) (by decide)).2
    (by decide)

theorem le_foldl_max_init (xs : List ℤ) : ∀ a : ℤ, a ≤ xs.foldl max a := by
  induction xs with
  | nil => intro a; exact le_refl a
  | cons x xs ih =>
    intro a
    exact le_trans (le_max_left a x) (ih (max a x))

theorem le_foldl_max_mem (xs : List ℤ) : ∀ (a b : ℤ), b ∈ xs → b ≤ xs.foldl max a := by
  induction xs with
  | nil => intro a b hb; cases hb
  | cons x xs ih =>
    intro a b hb
    rcases List.mem_cons.mp hb with hb | hb
    · subst hb
      exact le_trans (le_max_right a b) (le_foldl_max_init xs (max a b))
    · exact ih (max a x) b hb

theorem foldl_max_cases (xs : List ℤ) : ∀ a : ℤ, xs.foldl max a = a ∨ xs.foldl max a ∈ xs := by
  induction xs with
  | nil => intro a; exact Or.inl rfl
  | cons x xs ih =>
    intro a
    rcases ih (max a x) with h | h
    · rcases max_choice a x with hm | hm
      · exact Or.inl (by rw [List.foldl_cons, h, hm])
      · exact Or.inr (by rw [List.foldl_cons, h, hm]; exact List.mem_cons_self x xs)
    · exact Or.inr (List.mem_cons_of_mem x h)

theorem listMax_ge (l : List ℤ) : ∀ b ∈ l, b ≤ listMax l := by
  cases l with
  | nil => intro b hb; cases hb
  | cons x xs =>
    intro b hb
    rcases List.mem_cons.mp hb with hb | hb
    · subst hb; exact le_foldl_max_init xs b
    · exact le_foldl_max_mem xs x b hb

theorem listMax_mem (l : List ℤ) (h : l ≠ []) : listMax l ∈ l := by
  cases l with
  | nil => exact absurd rfl h
  | cons x xs =>
    rcases foldl_max_cases xs x with hc | hc
    · rw [listMax, hc]; exact List.mem_cons_self x xs
    · exact List.mem_cons_of_mem x hc

theorem listIndex_lt_length (a : ℤ) (l : List ℤ) (h : a ∈ l) :
    listIndex a l < l.length := by
  induction l with
  | nil => cases h
  | cons x xs ih =>
    by_cases hx : x = a
    · simp [listIndex, hx]
    · have ha : a ∈ xs := by
        rcases List.mem_cons.mp h with h' | h'
        · exact absurd h'.symm hx
        · exact h'
      simp only [listIndex, if_neg hx, List.length_cons]
      exact Nat.succ_lt_succ (ih ha)

theorem getD_listIndex (a : ℤ) (l : List ℤ) (h : a ∈ l) :
    l.getD (listIndex a l) 0 = a := by
  induction l with
  | nil => cases h
  | cons x xs ih =>
    by_cases hx : x = a
    · simp [listIndex, hx]
    · have ha : a ∈ xs := by
        rcases List.mem_cons.mp h with h' | h'
        · exact absurd h'.symm hx
        · exact h'
      simp only [listIndex, if_neg hx, List.getD_cons_succ]
      exact ih ha

theorem listIndex_min (a : ℤ) (l : List ℤ) :
    ∀ j, j < listIndex a l → l.getD j 0 ≠ a := by
  induction l with
  | nil => intro j hj; simp [listIndex] at hj
  | cons x xs ih =>
    intro j hj
    by_cases hx : x = a
    · simp [listIndex, hx] at hj
    · simp only [listIndex, if_neg hx] at hj
      cases j with
      | zero => simpa using hx
      | succ k =>
        simp only [List.getD_cons_succ]
        exact ih k (Nat.lt_of_succ_lt_succ hj)

theorem map_bikes_getD (l : List Station) :
    ∀ j, j < l.length →
      (l.map fun s => s.bikes_available).getD j 0 =
        (l.getD j dummyStation).bikes_available := by
  induction l with
  | nil => intro j hj; cases hj
  | cons s rest ih =>
    intro j hj
    cases j with
    | zero => rfl
    | succ k =>
      simp only [List.map_cons, List.getD_cons_succ]
      exact ih k (Nat.lt_of_succ_lt_succ hj)

theorem getD_mem_of_lt (l : List ℤ) (j : ℕ) (hj : j < l.length) : l.getD j 0 ∈ l := by
  rw [List.getD_eq_getElem l 0 hj]
  exact List.getElem_mem hj

/-- C7: for a non-empty repository, `get_station_with_max_bikes` returns
the id of a station holding the maximum `bikes_available`, and every
station strictly before it holds strictly fewer bikes (ties go to the
earliest position). -/
theorem max_bikes_first_maximum (stations : List Station) (h : stations ≠ []) :
    ∃ i, i < stations.length ∧
      get_station_with_max_bikes stations = (stations.getD i dummyStation).id ∧
      (∀ j, j < stations.length →
        (stations.getD j dummyStation).bikes_available ≤
          (stations.getD i dummyStation).bikes_available) ∧
      (∀ j, j < i →
        (stations.getD j dummyStation).bikes_available <
          (stations.getD i dummyStation).bikes_available) := by
  set bl := stations.map fun s => s.bikes_available with hbl
  have hblne : bl ≠ [] := by
    simpa [hbl] using h
  have hmem : listMax bl ∈ bl := listMax_mem bl hblne
  refine ⟨listIndex (listMax bl) bl, ?_, ?_, ?_, ?_⟩
  · have := listIndex_lt_length (listMax bl) bl hmem
    simpa [hbl] using this
  · rfl
  · intro j hj
    have hj' : j < bl.length := by simpa [hbl] using hj
    have h1 : bl.getD j 0 = (stations.getD j dummyStation).bikes_available :=
      map_bikes_getD stations j hj
    have h2 : bl.getD (listIndex (listMax bl) bl) 0 =
        (stations.getD (listIndex (listMax bl) bl) dummyStation).bikes_available := by
      have hi : listIndex (listMax bl) bl < stations.length := by
        have := listIndex_lt_length (listMax bl) bl hmem
        simpa [hbl] using this
      exact map_bikes_getD stations _ hi
    rw [← h1, ← h2, getD_listIndex (listMax bl) bl hmem]
    exact listMax_ge bl _ (getD_mem_of_lt bl j hj')
  · intro j hj
    have hjlen : j < stations.length := by
      have hi : listIndex (listMax bl) bl < stations.length := by
        have := listIndex_lt_length (listMax bl) bl hmem
        simpa [hbl] using this
      exact lt_trans hj hi
    have hj' : j < bl.length := by simpa [hbl] using hjlen
    have h1 : bl.getD j 0 = (stations.getD j dummyStation).bikes_available :=
      map_bikes_getD stations j hjlen
    have h2 : bl.getD (listIndex (listMax bl) bl) 0 =
        (stations.getD (listIndex (listMax bl) bl) dummyStation).bikes_available := by
      have hi : listIndex (listMax bl) bl < stations.length := by
        have := listIndex_lt_length (listMax bl) bl hmem
        simpa [hbl] using this
      exact map_bikes_getD stations _ hi
    rw [← h1, ← h2, getD_listIndex (listMax bl) bl hmem]
    exact lt_of_le_of_ne (listMax_ge bl _ (getD_mem_of_lt bl j hj'))
      (listIndex_min (listMax bl) bl j hj)

/-- Witness for C7: `SAMPLE_STATIONS` is non-empty; the conclusion holds
there (the maximum of 13 bikes is at position 1, station 7088). -/
theorem max_bikes_first_maximum_witness :
    ∃ i, i < SAMPLE_STATIONS.length ∧
      get_station_with_max_bikes SAMPLE_STATIONS =
        (SAMPLE_STATIONS.getD i dummyStation).id ∧
      (∀ j, j < SAMPLE_STATIONS.length →
        (SAMPLE_STATIONS.getD j dummyStation).bikes_available ≤
          (SAMPLE_STATIONS.getD i dummyStation).bikes_available) ∧
      (∀ j, j < i →
        (SAMPLE_STATIONS.getD j dummyStation).bikes_available <
          (SAMPLE_STATIONS.getD i dummyStation).bikes_available) :=
  max_bikes_first_maximum SAMPLE_STATIONS (by decide)

theorem get_stations_aux (n : ℤ) (l : List Station) : ∀ acc : List ℤ,
    l.foldl
      (fun stations_with_n_docks s =>
        if n ≤ s.docks_available then stations_with_n_docks ++ [s.id]
        else stations_with_n_docks) acc =
      acc ++ (l.filter fun s => n ≤ s.docks_available).map (fun s => s.id) := by
  induction l with
  | nil => intro acc; simp
  | cons s rest ih =>
    intro acc
    by_cases hc : n ≤ s.docks_available
    · simp only [List.foldl_cons, if_pos hc, ih]
      simp [hc]
    · simp only [List.foldl_cons, if_neg hc, ih]
      simp [hc]

/-- C8: `get_stations_with_n_docks` returns exactly the ids of the
stations with `docks_available >= n`, in repository order; with `n = 0`
and all dock counts non-negative it returns every id in order. -/
theorem stations_with_n_docks_spec (n : ℤ) (stations : List Station) (hn : 0 ≤ n) :
    get_stations_with_n_docks n stations =
      (stations.filter fun s => n ≤ s.docks_available).map (fun s => s.id) ∧
    ((∀ s ∈ stations, 0 ≤ s.docks_available) →
      get_stations_with_n_docks 0 stations = stations.map fun s => s.id) := by
  constructor
  · simpa [get_stations_with_n_docks] using get_stations_aux n stations []
  · intro hall
    have h0 : get_stations_with_n_docks 0 stations =
        (stations.filter fun s => (0:ℤ) ≤ s.docks_available).map (fun s => s.id) := by
      simpa [get_stations_with_n_docks] using get_stations_aux 0 stations []
    rw [h0, List.filter_eq_self.mpr]
    intro a ha
    exact decide_eq_true (hall a ha)

/-- Witness for C8 at `n = 2` on `SAMPLE_STATIONS`. -/
theorem stations_with_n_docks_spec_witness :
    get_stations_with_n_docks 2 SAMPLE_STATIONS =
      (SAMPLE_STATIONS.filter fun s => 2 ≤ s.docks_available).map (fun s => s.id) ∧
    ((∀ s ∈ SAMPLE_STATIONS, 0 ≤ s.docks_available) →
      get_stations_with_n_docks 0 SAMPLE_STATIONS = SAMPLE_STATIONS.map fun s => s.id) :=
  stations_with_n_docks_spec 2 SAMPLE_STATIONS (by decide)

theorem direction_west (d : ℝ) (h1 : 0 < d) (h2 : d < 22.5) :
    direction_of_degree d = some "WEST" := by
  unfold direction_of_degree
  rw [if_pos (Or.inr ⟨h2, h1⟩)]

theorem direction_none_on_gap (d : ℝ) (h1 : -67.5 ≤ d) (h2 : d < -22.5) :
    direction_of_degree d = none := by
  unfold direction_of_degree
  split_ifs with g1 g2 g3 g4 g5 g6 g7 g8
  · exfalso; rcases g1 with ⟨a, b⟩ | ⟨a, b⟩ <;> linarith
  · exfalso; obtain ⟨a, b⟩ := g2; linarith
  · exfalso; obtain ⟨a, b⟩ := g3; linarith
  · exfalso; obtain ⟨a, b⟩ := g4; linarith
  · exfalso; rcases g5 with ⟨a, b⟩ | ⟨a, b⟩ <;> linarith
  · exfalso; obtain ⟨a, b⟩ := g6; linarith
  · exfalso; obtain ⟨a, b⟩ := g7; linarith
  · exfalso; obtain ⟨a, b⟩ := g8; linarith
  · rfl

theorem arctan_sample_pos : 0 < Real.arctan (993/6205) := by
  have h := Real.arctan_strictMono (show (0:ℝ) < 993/6205 by norm_num)
  rwa [Real.arctan_zero] at h

theorem arctan_sample_lt : Real.arctan (993/6205) < Real.pi / 8 := by
  have h8a : (0:ℝ) < Real.pi / 8 := by linarith [Real.pi_pos]
  have h8b : Real.pi / 8 < Real.pi / 2 := by linarith [Real.pi_pos]
  have htan : Real.pi / 8 < Real.tan (Real.pi / 8) := Real.lt_tan h8a h8b
  have hr : (993/6205 : ℝ) < Real.tan (Real.pi / 8) := by
    have : (993/6205 : ℝ) < Real.pi / 8 := by
      have h3 := Real.pi_gt_three
      have : (993/6205 : ℝ) < 3/8 := by norm_num
      linarith
    linarith
  have := Real.arctan_strictMono hr
  rwa [Real.arctan_tan (by linarith [Real.pi_pos]) h8b] at this

/-- The degree value computed by `get_direction` on `SAMPLE_STATIONS`
falls in the open interval `(0, 22.5)`, so the first branch fires. -/
theorem getdir_sample : get_direction 7087 7088 SAMPLE_STATIONS = some "WEST" := by
  have hfc : find_coords 7087 7088 SAMPLE_STATIONS =
      (some (43.684371, -79.316756), some (43.683378, -79.322961)) := by decide
  unfold get_direction
  rw [hfc]
  dsimp only
  rw [if_neg (by decide : ¬((-79.316756 : ℚ) = -79.322961))]
  have hy : ((43.684371 : ℚ) : ℝ) - ((43.683378 : ℚ) : ℝ) = ((0.000993 : ℚ) : ℝ) := by
    rw [← Rat.cast_sub]
    exact Rat.cast_inj.mpr (by decide)
  have hx : ((-79.316756 : ℚ) : ℝ) - ((-79.322961 : ℚ) : ℝ) = ((0.006205 : ℚ) : ℝ) := by
    rw [← Rat.cast_sub]
    exact Rat.cast_inj.mpr (by decide)
  rw [hy, hx]
  have hxpos : (0:ℝ) < ((0.006205 : ℚ) : ℝ) := by
    rw [show ((0:ℝ) = ((0:ℚ):ℝ)) by norm_num]
    exact Rat.cast_lt.mpr (by decide)
  rw [atan2, if_pos hxpos]
  have hratio : ((0.000993 : ℚ) : ℝ) / ((0.006205 : ℚ) : ℝ) = (993/6205 : ℝ) := by
    rw [← Rat.cast_div,
      show ((0.000993 : ℚ) / 0.006205 : ℚ) = (993/6205 : ℚ) from by decide]
    push_cast
    norm_num
  rw [hratio]
  apply direction_west
  · have h1 := arctan_sample_pos
    have h2 := Real.pi_pos
    positivity
  · rw [div_lt_iff₀ Real.pi_pos]
    have h1 := arctan_sample_lt
    linarith

theorem get_direction_equal_lon (start_id end_id : ℤ) (stations : List Station)
    (lat1 lat2 lon : ℚ)
    (hfc : find_coords start_id end_id stations = (some (lat1, lon), some (lat2, lon))) :
    get_direction start_id end_id stations =
      direction_of_degree (180 * atan2 ((lat1 : ℝ) - (lat2 : ℝ))
        (((lon + 0.00001 : ℚ) : ℝ) - (lon : ℝ)) / Real.pi) := by
  unfold get_direction
  rw [hfc]
  dsimp only
  rw [if_pos rfl]

theorem get_direction_found (start_id end_id : ℤ) (stations : List Station)
    (lat1 lon1 lat2 lon2 : ℚ)
    (hfc : find_coords start_id end_id stations = (some (lat1, lon1), some (lat2, lon2)))
    (hne : lon1 ≠ lon2) :
    get_direction start_id end_id stations =
      direction_of_degree (180 * atan2 ((lat1 : ℝ) - (lat2 : ℝ))
        ((lon1 : ℝ) - (lon2 : ℝ)) / Real.pi) := by
  unfold get_direction
  rw [hfc]
  dsimp only
  rw [if_neg hne]

theorem direction_table (d : ℝ) :
    ((d > -22.5 ∧ d < 0) ∨ (d < 22.5 ∧ d > 0) → direction_of_degree d = some "WEST") ∧
    (d ≥ 22.5 ∧ d ≤ 67.5 → direction_of_degree d = some "SOUTHWEST") ∧
    (d > 67.5 ∧ d < 112.5 → direction_of_degree d = some "SOUTH") ∧
    (d ≥ 112.5 ∧ d ≤ 157.5 → direction_of_degree d = some "SOUTHEAST") ∧
    ((d > 157.5 ∧ d < 180) ∨ (d < -157.5 ∧ d > -180) → direction_of_degree d = some "EAST") ∧
    (d ≥ -157.5 ∧ d ≤ -112.5 → direction_of_degree d = some "NORTHEAST") ∧
    (d > -112.5 ∧ d < -67.5 → direction_of_degree d = some "NORTH") ∧
    (-67.5 ≤ d ∧ d < -22.5 → direction_of_degree d = none) ∧
    (d = 0 ∨ d = 180 → direction_of_degree d = some "NORTHWEST") := by
  refine ⟨?_, ?_, ?_, ?_, ?_, ?_, ?_, fun h => direction_none_on_gap d h.1 h.2, ?_⟩
  · intro h
    unfold direction_of_degree
    rw [if_pos h]
  · rintro ⟨h1, h2⟩
    unfold direction_of_degree
    rw [if_neg (by rintro (⟨a, b⟩ | ⟨a, b⟩) <;> linarith), if_pos ⟨h1, h2⟩]
  · rintro ⟨h1, h2⟩
    unfold direction_of_degree
    rw [if_neg (by rintro (⟨a, b⟩ | ⟨a, b⟩) <;> linarith),
      if_neg (by rintro ⟨a, b⟩; linarith), if_pos ⟨h1, h2⟩]
  · rintro ⟨h1, h2⟩
    unfold direction_of_degree
    rw [if_neg (by rintro (⟨a, b⟩ | ⟨a, b⟩) <;> linarith),
      if_neg (by rintro ⟨a, b⟩; linarith),
      if_neg (by rintro ⟨a, b⟩; linarith), if_pos ⟨h1, h2⟩]
  · intro h
    have hd1 : d > 157.5 ∨ d < -157.5 := by rcases h with ⟨a, b⟩ | ⟨a, b⟩; exacts [Or.inl a, Or.inr a]
    unfold direction_of_degree
    rw [if_neg (by rintro (⟨a, b⟩ | ⟨a, b⟩) <;> rcases hd1 with c | c <;> linarith),
      if_neg (by rintro ⟨a, b⟩; rcases hd1 with c | c <;> linarith),
      if_neg (by rintro ⟨a, b⟩; rcases hd1 with c | c <;> linarith),
      if_neg (by rintro ⟨a, b⟩; rcases hd1 with c | c <;> linarith), if_pos h]
  · rintro ⟨h1, h2⟩
    unfold direction_of_degree
    rw [if_neg (by rintro (⟨a, b⟩ | ⟨a, b⟩) <;> linarith),
      if_neg (by rintro ⟨a, b⟩; linarith),
      if_neg (by rintro ⟨a, b⟩; linarith),
      if_neg (by rintro ⟨a, b⟩; linarith),
      if_neg (by rintro (⟨a, b⟩ | ⟨a, b⟩) <;> linarith), if_pos ⟨h1, h2⟩]
  · rintro ⟨h1, h2⟩
    unfold direction_of_degree
    rw [if_neg (by rintro (⟨a, b⟩ | ⟨a, b⟩) <;> linarith),
      if_neg (by rintro ⟨a, b⟩; linarith),
      if_neg (by rintro ⟨a, b⟩; linarith),
      if_neg (by rintro ⟨a, b⟩; linarith),
      if_neg (by rintro (⟨a, b⟩ | ⟨a, b⟩) <;> linarith),
      if_neg (by rintro ⟨a, b⟩; linarith), if_pos ⟨h1, h2⟩]
  · rintro (h | h) <;> subst h <;> (unfold direction_of_degree; norm_num)

/-- C6 counterexample: at the very station pair named by the claim (and by
the source docstring), `get_direction` returns `'WEST'`, not
`'SOUTHWEST'` — the computed bearing is about 9.1°, inside the code's
WEST bucket. -/
theorem get_direction_sample_not_southwest :
    get_direction 7087 7088 SAMPLE_STATIONS = some "WEST" ∧
    get_direction 7087 7088 SAMPLE_STATIONS ≠ some "SOUTHWEST" := by
  refine ⟨getdir_sample, ?_⟩
  rw [getdir_sample]
  simp

/-- C6 (amended): once its coordinates are found, `get_direction` buckets
the degree of `atan2(lat_start - lat_end, lon_start - lon_end)` (with the
start longitude nudged by exactly `0.00001` when the longitudes are
equal) through the source's `if`/`elif` chain, which matches the spec's
bucket table on every sector except that degrees in `[-67.5, -22.5)`
yield no label at all (the final branch reads
`degree >= -67.5 and degree >= -22.5`, so only degree `0`, `-22.5` or
`180` gives `'NORTHWEST'`), and at the claim's concrete station pair the
returned label is `'WEST'`, not `'SOUTHWEST'`. -/
theorem get_direction_corrected :
    (∀ d : ℝ,
      ((d > -22.5 ∧ d < 0) ∨ (d < 22.5 ∧ d > 0) → direction_of_degree d = some "WEST") ∧
      (d ≥ 22.5 ∧ d ≤ 67.5 → direction_of_degree d = some "SOUTHWEST") ∧
      (d > 67.5 ∧ d < 112.5 → direction_of_degree d = some "SOUTH") ∧
      (d ≥ 112.5 ∧ d ≤ 157.5 → direction_of_degree d = some "SOUTHEAST") ∧
      ((d > 157.5 ∧ d < 180) ∨ (d < -157.5 ∧ d > -180) → direction_of_degree d = some "EAST") ∧
      (d ≥ -157.5 ∧ d ≤ -112.5 → direction_of_degree d = some "NORTHEAST") ∧
      (d > -112.5 ∧ d < -67.5 → direction_of_degree d = some "NORTH") ∧
      (-67.5 ≤ d ∧ d < -22.5 → direction_of_degree d = none) ∧
      (d = 0 ∨ d = 180 → direction_of_degree d = some "NORTHWEST")) ∧
    (∀ (start_id end_id : ℤ) (stations : List Station) (lat1 lon1 lat2 lon2 : ℚ),
      find_coords start_id end_id stations = (some (lat1, lon1), some (lat2, lon2)) →
      lon1 ≠ lon2 →
      get_direction start_id end_id stations =
        direction_of_degree (180 * atan2 ((lat1 : ℝ) - (lat2 : ℝ))
          ((lon1 : ℝ) - (lon2 : ℝ)) / Real.pi)) ∧
    (∀ (start_id end_id : ℤ) (stations : List Station) (lat1 lat2 lon : ℚ),
      find_coords start_id end_id stations = (some (lat1, lon), some (lat2, lon)) →
      get_direction start_id end_id stations =
        direction_of_degree (180 * atan2 ((lat1 : ℝ) - (lat2 : ℝ))
          (((lon + 0.00001 : ℚ) : ℝ) - (lon : ℝ)) / Real.pi)) ∧
    get_direction 7087 7088 SAMPLE_STATIONS = some "WEST" :=
  ⟨direction_table, get_direction_found, get_direction_equal_lon, getdir_sample⟩

/-- Witness for C6 (amended) at concrete inputs: the table at degrees
`-45` (the unlabelled gap) and `45`, the lookup on `SAMPLE_STATIONS`
(distinct longitudes), an equal-longitude repository, and the sample
pair. -/
theorem get_direction_corrected_witness :
    direction_of_degree (-45) = none ∧
    direction_of_degree 45 = some "SOUTHWEST" ∧
    get_direction 7087 7088 SAMPLE_STATIONS =
      direction_of_degree (180 * atan2 (((43.684371 : ℚ) : ℝ) - ((43.683378 : ℚ) : ℝ))
        (((-79.316756 : ℚ) : ℝ) - ((-79.322961 : ℚ) : ℝ)) / Real.pi) ∧
    get_direction 1 2 eqlonRepo =
      direction_of_degree (180 * atan2 (((1 : ℚ) : ℝ) - ((2 : ℚ) : ℝ))
        ((((5 : ℚ) + 0.00001 : ℚ) : ℝ) - ((5 : ℚ) : ℝ)) / Real.pi) ∧
    get_direction 7087 7088 SAMPLE_STATIONS = some "WEST" :=
  ⟨(get_direction_corrected.1 (-45)).2.2.2.2.2.2.2.1 ⟨by norm_num, by norm_num⟩,
    (get_direction_corrected.1 45).2.1 ⟨by norm_num, by norm_num⟩,
    get_direction_corrected.2.1 7087 7088 SAMPLE_STATIONS
      43.684371 (-79.316756) 43.683378 (-79.322961) (by decide) (by decide),
    get_direction_corrected.2.2.1 1 2 eqlonRepo 1 2 5 (by decide),
    get_direction_corrected.2.2.2⟩
